import Mathlib

/-!
Verification development for the Upwork "best matches" scraper
(`upwork_best_matches_scraper.py`, `utils/search_scraper.py`,
`utils/telegram_service.py`).

Python strings are modelled as lists of code points (`PyStr := List Char`),
matching Python's sequence-of-code-points string semantics.  Stateful loops
become folds over explicit state; code that may raise is modelled with
`Option`/`Except` or with explicit skip paths mirroring the `try/except`
structure of the source.
-/

namespace UpworkScraper

/-- Python strings as sequences of code points. -/
abbrev PyStr := List Char

/-- Whether `needle` occurs at the start of `hay` (Python `str.startswith`). -/
def startsWithCL : PyStr → PyStr → Bool
  | [], _ => true
  | _ :: _, [] => false
  | a :: as, b :: bs => a == b && startsWithCL as bs

/-- Python substring containment `needle in hay`. -/
def hasSub (needle : PyStr) : PyStr → Bool
  | [] => needle.isEmpty
  | c :: rest => startsWithCL needle (c :: rest) || hasSub needle rest

/-- Python `str.lower` (code-point-wise; the configured terms are ASCII). -/
def lowerCL (s : PyStr) : PyStr := s.map Char.toLower

/-- Characters stripped by Python's `str.strip()`. -/
def pySpace (c : Char) : Bool :=
  c == ' ' || c == '\t' || c == '\n' || c == '\r' ||
  c == Char.ofNat 11 || c == Char.ofNat 12

/-- Python `str.strip()`. -/
def pyStrip (s : PyStr) : PyStr :=
  ((s.dropWhile pySpace).reverse.dropWhile pySpace).reverse

/-- URL canonicalization `url.split('/?')[0]`: everything before the first
occurrence of the two-character substring `/?` (the whole string when the
substring does not occur). -/
def stripQuery : PyStr → PyStr
  | [] => []
  | [c] => [c]
  | c :: d :: rest =>
    if c = '/' ∧ d = '?' then [] else c :: stripQuery (d :: rest)

/-- Whether the two-character substring `/?` occurs in `s`. -/
def hasSlashQ : PyStr → Bool
  | [] => false
  | [_] => false
  | c :: d :: rest => (c = '/' && d = '?') || hasSlashQ (d :: rest)


/-! ## Field extraction: shared pieces -/

/-- One extracted job record (the dict appended to `job_entries`). -/
structure Entry where
  url : PyStr
  title : PyStr
  description : PyStr
  proposals : PyStr
  posted : PyStr
  tags : List PyStr
deriving DecidableEq

/-- Seen-URL set plus accumulated records of one extraction pass. -/
structure ScrapeState where
  seen : List PyStr
  out : List Entry
deriving DecidableEq

/-- URL fragments that cause an entry to be skipped (both strategies). -/
def urlDenylist : List PyStr :=
  ["ontology_skill_uid".data, "search/saved".data, "search/jobs/saved".data]

/-- The banned-description skip condition used by both strategies:
`if description_text:` guard, then a case-insensitive substring test of each
configured term against the description. -/
def descBannedSkip (banned : List PyStr) (desc : PyStr) : Bool :=
  !desc.isEmpty && banned.any fun bc => hasSub (lowerCL bc) (lowerCL desc)

/-! ## Loose strategy (best-matches page, `upwork_best_matches_scraper.main`) -/

/-- DOM facts the loose loop body reads out of the ancestor container:
inner texts of `.//p`, `.//div`, `.//span` elements in document order, and
the texts of the first `Proposals`-containing and posted-time elements
(`none` when the lookup raises). -/
structure ContainerData where
  texts : List PyStr
  proposalsText : Option PyStr
  postedText : Option PyStr

/-- One anchor matched by `//a[contains(@href, '/jobs/')]`:
`link.get_attribute('href') or ''`, `link.text or ''`, and the ancestor
container when one of the three xpath fallbacks finds one. -/
structure Anchor where
  href : PyStr
  text : PyStr
  container : Option ContainerData

/-- Python `max(candidates, key=len)` keeps the first maximum. -/
def pickLongest (x : PyStr) : List PyStr → PyStr
  | [] => x
  | y :: rest => pickLongest (if y.length > x.length then y else x) rest

/-- Description heuristic of the loose strategy: the longest stripped
candidate text that is nonempty and differs from the title; `''` when the
container is missing or offers no candidate. -/
def looseDescription (title : PyStr) : Option ContainerData → PyStr
  | none => []
  | some cd =>
    let candidates :=
      (cd.texts.map pyStrip).filter fun t => !t.isEmpty && t ≠ title
    match candidates with
    | [] => []
    | c :: rest => pickLongest c rest

/-- Body of the loose collection loop for one anchor (lines 334–412 of
`upwork_best_matches_scraper.py`). -/
def looseStep (banned : List PyStr) (st : ScrapeState) (a : Anchor) :
    ScrapeState :=
  let url := a.href
  if url.isEmpty then st
  else if urlDenylist.any (fun bad => hasSub bad url) then st
  else
    let url := stripQuery url
    let title := pyStrip a.text
    if title.isEmpty then st
    else if url ∈ st.seen then st
    else
      let seen := st.seen ++ [url]
      let desc := looseDescription title a.container
      let props := match a.container with
        | none => [] | some cd => cd.proposalsText.getD []
      let posted := match a.container with
        | none => [] | some cd => cd.postedText.getD []
      if descBannedSkip banned desc then ⟨seen, st.out⟩
      else ⟨seen, st.out ++ [⟨url, title, desc, props, posted, []⟩]⟩

/-- One anchor of the loose loop, `none` when reading its fields raises
(the whole body sits in a `try/except: continue`). -/
def looseStepE (banned : List PyStr) (st : ScrapeState) :
    Option Anchor → ScrapeState
  | none => st
  | some a => looseStep banned st a

/-- The whole loose collection pass over the matched anchors. -/
def runLoose (banned : List PyStr) (anchors : List (Option Anchor)) :
    ScrapeState :=
  anchors.foldl (looseStepE banned) ⟨[], []⟩

/-! ## Structured strategy (`utils/search_scraper.scrape_search_page`) -/

/-- The `total-spent` list item: text of its `strong` child when that lookup
succeeds, and the item's own text as fallback. -/
structure SpentData where
  strongText : Option PyStr
  liText : PyStr

/-- The `location` list item: text of the `span[tabindex]` child when that
lookup succeeds, and the item's own text as fallback. -/
structure LocData where
  outerSpan : Option PyStr
  liText : PyStr

/-- The `ul[data-test='JobInfoClient']` block of one tile. -/
structure ClientData where
  verified : Bool
  unverified : Bool
  rating : Option PyStr
  spent : Option SpentData
  loc : Option LocData

/-- The labeled title link of a tile. -/
structure TitleLink where
  href : PyStr
  text : PyStr

/-- One `article[data-test='JobTile']` with the sub-element texts the loop
reads; each `Option` is `none` when that guarded lookup raises. -/
structure Tile where
  titleLink : Option TitleLink
  postedText : Option PyStr
  descText : Option PyStr
  proposalsText : Option PyStr
  tagTexts : List PyStr
  client : Option ClientData

/-- The screen-reader prefixes stripped from the scraped location text, in
source order (first match wins, then re-strip). -/
def locPrefixList : List PyStr :=
  ["Location ".data, "Location:".data, "Location\u00A0".data,
   "Location\n".data, "Location\t".data, "Location".data]

/-- Drop the first matching screen-reader prefix and re-strip. -/
def dropLocMarker : List PyStr → PyStr → PyStr
  | [], country => country
  | p :: rest, country =>
    if startsWithCL p country then pyStrip (country.drop p.length)
    else dropLocMarker rest country

/-- Location extraction of one tile: outer-span text, fallback to the whole
item text, screen-reader-prefix removal, and last visible line on multi-line
text. -/
def locCountry (ld : LocData) : PyStr :=
  let country := match ld.outerSpan with
    | some s => pyStrip s
    | none => []
  let country := if country.isEmpty then pyStrip ld.liText else country
  if country.isEmpty then country
  else
    let country := dropLocMarker locPrefixList country
    if country.contains '\n' then
      let tokens := ((country.splitOn '\n').map pyStrip).filter
        fun t => !t.isEmpty
      match tokens.getLast? with
      | some t => t
      | none => country
    else country

/-- Assemble the client summary parts, in source order: payment state,
rating, total spent, location. -/
def buildClientParts : Option ClientData → List PyStr
  | none => []
  | some c =>
    let p1 : List PyStr :=
      if c.verified then ["Payment verified".data]
      else if c.unverified then ["Payment unverified".data]
      else []
    let p2 : List PyStr := match c.rating with
      | some r => if r.isEmpty then [] else ["rating ".data ++ r]
      | none => []
    let p3 : List PyStr := match c.spent with
      | none => []
      | some sd => match sd.strongText with
        | some amt => if amt.isEmpty then [] else [amt ++ " spent".data]
        | none =>
          let txt := pyStrip sd.liText
          if txt.isEmpty then [] else [txt]
    let p4 : List PyStr := match c.loc with
      | none => []
      | some ld =>
        let country := locCountry ld
        if country.isEmpty then [] else [country]
    p1 ++ p2 ++ p3 ++ p4

/-- The banned-country filter on the assembled client parts: each lowered
configured term is tested as a substring of each lowered part. -/
def partsBannedSkip (banned : List PyStr) (parts : List PyStr) : Bool :=
  !parts.isEmpty &&
    banned.any fun bc => parts.any fun part => hasSub (lowerCL bc) (lowerCL part)

/-- Compose the enriched description: optional `Client:` line, optional
`Proposals:` line, then the raw description, joined with newlines. -/
def composeDescription (clientParts : List PyStr) (proposals desc : PyStr) :
    PyStr :=
  let clientInfo :=
    if !clientParts.isEmpty then List.intercalate " | ".data clientParts
    else []
  let parts : List PyStr :=
    (if !clientInfo.isEmpty
      then ["Client: ".data ++ clientInfo ++ "\n-".data] else []) ++
    (if !proposals.isEmpty
      then ["Proposals: ".data ++ proposals ++ "\n-".data] else []) ++
    (if !desc.isEmpty then [desc] else [])
  List.intercalate "\n".data parts

/-- The `description_text` of one tile: stripped text of the description
paragraph, `''` when the lookup raises. -/
def tileDesc (t : Tile) : PyStr :=
  match t.descText with
  | none => []
  | some s => pyStrip s

/-- The `proposals_text` of one tile: stripped text of the proposals item, `''`
when the lookup raises. -/
def tileProps (t : Tile) : PyStr :=
  match t.proposalsText with
  | none => []
  | some s => pyStrip s

/-- Body of the structured loop for one tile (lines 42–198 of
`utils/search_scraper.py`); any raise inside it — including the two
deliberate banned-country raises — lands in `except: continue`. -/
def tileStep (banned : List PyStr) (st : ScrapeState) (t : Tile) :
    ScrapeState :=
  match t.titleLink with
  | none => st
  | some tl =>
    let href := pyStrip tl.href
    let title := pyStrip tl.text
    if href.isEmpty || title.isEmpty then st
    else if urlDenylist.any (fun bad => hasSub bad href) then st
    else
      let href := stripQuery href
      if href ∈ st.seen then st
      else
        let seen := st.seen ++ [href]
        let posted := t.postedText.getD []
        let desc := tileDesc t
        let props := tileProps t
        let tags := (t.tagTexts.map pyStrip).filter fun x => !x.isEmpty
        let parts := buildClientParts t.client
        if partsBannedSkip banned parts then ⟨seen, st.out⟩
        else if descBannedSkip banned desc then ⟨seen, st.out⟩
        else
          ⟨seen, st.out ++
            [⟨href, title, composeDescription parts props desc,
              props, posted, tags⟩]⟩

/-- The whole structured pass over the matched tiles. -/
def runStructured (banned : List PyStr) (tiles : List Tile) : ScrapeState :=
  tiles.foldl (tileStep banned) ⟨[], []⟩

/-! ## Persistence and notification (persist loops of `main`) -/

/-- A wall-clock timestamp (`datetime`), to the minute precision the
notification format uses. -/
structure DateTime where
  year : Nat
  month : Nat
  day : Nat
  hour : Nat
  minute : Nat
deriving DecidableEq

/-- The three helpers imported from `utils/job_helpers` (that module's body
is not among the provided sources, so the persistence loop is parameterized
over them; every theorem below holds for all such functions).
`cleanProps`/`calcPosted` return `none` where the original raises or yields
`None` — `main` wraps each call in `try/except`. -/
structure JobHelpers where
  genId : PyStr → PyStr
  cleanProps : PyStr → Option PyStr
  calcPosted : PyStr → Option DateTime

/-- One row of the `jobs` table (the columns the scraper touches).
`INSERT` does not set `updated_at`, modelled as `none`. -/
structure DbRow where
  jobId : PyStr
  jobUrl : PyStr
  jobTitle : PyStr
  postedDate : Option DateTime
  jobDescription : PyStr
  jobTags : PyStr
  jobProposals : PyStr
  updatedAt : Option DateTime
deriving DecidableEq

/-- The dict handed to `notify_new_job` for a freshly inserted job. -/
structure NotifyJob where
  jobId : PyStr
  jobUrl : PyStr
  jobTitle : PyStr
  postedDate : Option DateTime
  jobDescription : PyStr
  jobTags : PyStr
  jobProposals : PyStr
deriving DecidableEq

/-- State threaded through a persist loop: the `jobs` table, the
notifications issued so far, and whether an uncaught exception has escaped
the loop (there is no per-entry handler around the persistence statements,
so once one entry's database call raises, no later entry is processed). -/
structure PersistState where
  db : List DbRow
  msgs : List NotifyJob
  aborted : Bool
deriving DecidableEq

/-- The `posted_date` value: computed only when the scraped relative string is
nonempty; parse failure yields `None`. -/
def postedDateOf (h : JobHelpers) (e : Entry) : Option DateTime :=
  if !e.posted.isEmpty then h.calcPosted e.posted else none

/-- The `job_proposals` value: cleaned when the scraped string is nonempty, `''` on a
cleaning failure. -/
def cleanedProps (h : JobHelpers) (e : Entry) : PyStr :=
  if !e.proposals.isEmpty then
    match h.cleanProps e.proposals with
    | some p => p
    | none => []
  else []

/-- The query `SELECT COUNT(*) FROM jobs WHERE job_id = ?`. -/
def countById (db : List DbRow) (id : PyStr) : Nat :=
  (db.filter fun r => decide (r.jobId = id)).length

/-- The update `UPDATE jobs SET job_proposals = ?, updated_at = ? WHERE job_id = ?`. -/
def updateProposals (db : List DbRow) (id props : PyStr) (now : DateTime) :
    List DbRow :=
  db.map fun r =>
    if r.jobId = id then
      { r with jobProposals := props, updatedAt := some now }
    else r

/-- Body of the persist loop for one extracted entry (lines 417–458 of
`upwork_best_matches_scraper.py`; the search-page persist loop at lines
467–508 is the same code).  `dbFail e = true` models the database layer
raising while persisting `e`; no handler exists inside the loop, so the
exception makes this and every later iteration unreachable (`aborted`). -/
def persistStep (h : JobHelpers) (dbFail : Entry → Bool) (now : DateTime)
    (st : PersistState) (e : Entry) : PersistState :=
  if st.aborted then st
  else if dbFail e then { st with aborted := true }
  else
    let jobId := h.genId e.title
    let props := cleanedProps h e
    if 0 < countById st.db jobId then
      { st with db := updateProposals st.db jobId props now }
    else
      let posted := postedDateOf h e
      { st with
          db := st.db ++
            [⟨jobId, e.url, e.title, posted, e.description, "[]".data,
              props, none⟩],
          msgs := st.msgs ++
            [⟨jobId, e.url, e.title, posted, e.description, "[]".data,
              props⟩] }

/-- The whole persist loop over the extracted entries. -/
def persistAll (h : JobHelpers) (dbFail : Entry → Bool) (now : DateTime)
    (st : PersistState) (entries : List Entry) : PersistState :=
  entries.foldl (persistStep h dbFail now) st

/-! ## Message formatting (`utils/telegram_service.format_job_message`) -/

/-- Decimal digits of `n`. -/
def natDigits (n : Nat) : PyStr := (toString n).data

/-- Zero-pad to two digits (`strftime` `%m`/`%d`/`%H`/`%M`). -/
def pad2 (n : Nat) : PyStr :=
  let s := natDigits n
  List.replicate (2 - s.length) '0' ++ s

/-- Zero-pad to four digits (`strftime` `%Y`). -/
def pad4 (n : Nat) : PyStr :=
  let s := natDigits n
  List.replicate (4 - s.length) '0' ++ s

/-- The helper `_short_date`: a `datetime` value is rendered as `YYYY-MM-DD HH:MM`,
`None` as `''`.  (The string-parsing branch of the original is unreachable
for the dicts `main` builds, whose `posted_date` is a `datetime` or `None`.) -/
def shortDate : Option DateTime → PyStr
  | some d =>
    pad4 d.year ++ '-' :: pad2 d.month ++ '-' :: pad2 d.day ++
      ' ' :: pad2 d.hour ++ ':' :: pad2 d.minute
  | none => []

/-- The marker appended to an over-long description: the source file holds
the three code points U+00E2, U+20AC, U+00A6 (a mis-encoded ellipsis),
appended once. -/
def ellipsisMark : PyStr :=
  [Char.ofNat 0xE2, Char.ofNat 0x20AC, Char.ofNat 0xA6]

/-- The truncation `desc_full[:800] + marker if len(desc_full) > 800 else desc_full`. -/
def truncateDesc (s : PyStr) : PyStr :=
  if s.length > 800 then s.take 800 ++ ellipsisMark else s

/-- The separator line. -/
def sepLine : PyStr := "---".data

/-- The function `format_job_message`: seven body lines joined with newlines, wrapped in
a leading and a trailing separator line.  (`tags_text` is computed by the
original but never placed in the message.) -/
def formatJobMessage (j : NotifyJob) : PyStr :=
  let description := truncateDesc j.jobDescription
  let messageLines : List PyStr :=
    [j.jobTitle, sepLine, j.jobUrl, sepLine,
     shortDate j.postedDate, sepLine, description]
  let body := List.intercalate ['\n'] messageLines
  sepLine ++ '\n' :: body ++ '\n' :: sepLine

/-- The message shape asserted by the spec — title line, separator, URL
line, separator, short-date line, separator, description, with no
additional lines.  Stated from the spec's words, for comparison with
`formatJobMessage`. -/
def specClaimMessage (j : NotifyJob) : PyStr :=
  List.intercalate ['\n']
    [j.jobTitle, sepLine, j.jobUrl, sepLine,
     shortDate j.postedDate, sepLine, truncateDesc j.jobDescription]

/-! ## Invariant vocabulary for the collection loops -/

/-- Canonical URLs of the records collected so far. -/
def outUrls (st : ScrapeState) : List PyStr := st.out.map Entry.url

/-- Shape of one collection-loop step: it leaves the state unchanged, or
records one fresh canonical URL as seen — with or without emitting exactly
one record carrying that URL. -/
def StepShape {α : Type} (step : ScrapeState → α → ScrapeState) : Prop :=
  ∀ st a, step st a = st ∨
    (∃ u, u ∉ st.seen ∧ step st a = ⟨st.seen ++ [u], st.out⟩) ∨
    (∃ u e, u ∉ st.seen ∧ Entry.url e = u ∧
      step st a = ⟨st.seen ++ [u], st.out ++ [e]⟩)

/-! ## Session liveness probe (`is_driver_alive`) -/

/-- A browser session handle, observed through the one call the probe
makes: `execute_script("return 1")`, which either returns a value or
raises. -/
structure Driver where
  execNoOp : Except PyStr Int

/-- The probe `is_driver_alive`: `try: execute_script; return True / except: return
False` — total by construction (the embedding returns `Bool` on every
session, i.e. the original never propagates an exception). -/
def is_driver_alive (d : Driver) : Bool :=
  match d.execNoOp with
  | .ok _ => true
  | .error _ => false

/-! ## Concrete inputs used in counterexamples and witnesses -/

/-- Banned list for the structured-pass composed-description discrepancy. -/
def cxBannedA : List PyStr := ["proposals:".data]

/-- A tile whose raw description and client parts are clean, but whose
composed description gains a `Proposals:` label. -/
def cxTile : Tile :=
  ⟨some ⟨"https://www.upwork.com/jobs/~abc".data, "Great job".data⟩,
   none, some "great work".data, some "5".data, [], none⟩

/-- Banned list holding the empty term. -/
def cxBannedB : List PyStr := [[]]

/-- An anchor with no container: its composed description is `''`. -/
def cxAnchor : Anchor :=
  ⟨"https://www.upwork.com/jobs/~x".data, "T".data, none⟩

/-- Banned list with the term `india`. -/
def wBanned1 : List PyStr := ["india".data]

/-- An anchor whose heuristic description mentions a banned term. -/
def wAnchor1 : Anchor :=
  ⟨"https://www.upwork.com/jobs/~w1".data, "Logo design".data,
   some ⟨["Logo design".data,
          "Need a team in India for a long project".data], none, none⟩⟩

/-- A tile whose client location is a banned term. -/
def wTile1 : Tile :=
  ⟨some ⟨"https://www.upwork.com/jobs/~w2".data, "Data entry".data⟩,
   none, none, none, [],
   some ⟨false, false, none, none, some ⟨some "India".data, []⟩⟩⟩

/-- An anchor with whitespace-only visible text. -/
def wAnchor7 : Anchor :=
  ⟨"https://www.upwork.com/jobs/~w7".data, "   ".data, none⟩

/-- A tile whose title link has whitespace-only visible text. -/
def wTile7 : Tile :=
  ⟨some ⟨"https://www.upwork.com/jobs/~w7b".data, " \n ".data⟩,
   none, none, none, [], none⟩

/-- Canonical URL shared by the two anchors below. -/
def wU10 : PyStr := "https://www.upwork.com/jobs/~u10".data

/-- First anchor: banned description, query-suffixed URL. -/
def wA10a : Anchor :=
  ⟨"https://www.upwork.com/jobs/~u10/?ref=a".data, "First".data,
   some ⟨["Based in India".data], none, none⟩⟩

/-- Second anchor: clean, same canonical URL under another query suffix. -/
def wA10b : Anchor :=
  ⟨"https://www.upwork.com/jobs/~u10/?ref=b".data, "Second".data, none⟩

/-- A neutral clean anchor. -/
def wAnchor2 : Anchor :=
  ⟨"https://www.upwork.com/jobs/~w2x".data, "W2".data, none⟩

/-- Simple concrete job helpers (the persistence theorems hold for every
choice of helpers; these instantiate them for evaluation). -/
def idHelpers : JobHelpers :=
  ⟨fun t => t, fun p => some p, fun _ => none⟩

/-- A concrete wall-clock instant. -/
def wNow : DateTime := ⟨2024, 5, 1, 12, 0⟩

/-- A database failure on the entry titled `A`. -/
def cx2Fail : Entry → Bool := fun e => e.title == "A".data

/-- Entry whose persistence raises. -/
def cx2e1 : Entry := ⟨"https://u/1".data, "A".data, [], [], [], []⟩

/-- Entry that would persist fine on its own. -/
def cx2e2 : Entry := ⟨"https://u/2".data, "B".data, [], [], [], []⟩

/-- A database failure on one specific URL. -/
def w2Fail : Entry → Bool := fun e => e.url == "https://u/9".data

/-- Entry matching `w2Fail`. -/
def w2e : Entry := ⟨"https://u/9".data, "X".data, [], [], [], []⟩

/-- A pre-existing database row for title `T`. -/
def w3Row : DbRow :=
  ⟨"T".data, "https://old".data, "T".data, none, "old desc".data,
   "[]".data, "3".data, none⟩

/-- Database state holding exactly `w3Row`. -/
def w3St : PersistState := ⟨[w3Row], [], false⟩

/-- A re-scraped entry with the same title and new proposals. -/
def w3e : Entry :=
  ⟨"https://new".data, "T".data, "new desc".data, "10".data, [], []⟩

/-- No database failures. -/
def w3Fail : Entry → Bool := fun _ => false

/-- The row pair produced by re-processing `w3e` over `w3St`. -/
def w3Pair : DbRow × DbRow :=
  (⟨"T".data, "https://old".data, "T".data, none, "old desc".data,
    "[]".data, "10".data, some wNow⟩, w3Row)

/-- A concrete notification payload. -/
def cx8Job : NotifyJob :=
  ⟨"t".data, "https://u".data, "Title".data, none, "Desc".data,
   "[]".data, []⟩

/-- A session whose no-op script call returns. -/
def wDriverOk : Driver := ⟨Except.ok 1⟩

/-- A session whose no-op script call raises. -/
def wDriverDead : Driver := ⟨Except.error "invalid session id".data⟩

/-! ## Properties of URL canonicalization -/

theorem stripQuery_of_not_hasSlashQ (l : PyStr) (h : hasSlashQ l = false) :
    stripQuery l = l := by
  induction l with
  | nil => rfl
  | cons c rest ih =>
    cases rest with
    | nil => rfl
    | cons d t =>
      simp only [hasSlashQ, Bool.or_eq_false_iff, Bool.and_eq_false_iff] at h
      simp only [stripQuery]
      rcases h with ⟨h1, h2⟩
      have hcd : ¬(c = '/' ∧ d = '?') := by
        rintro ⟨rfl, rfl⟩
        simp at h1
      rw [if_neg hcd, ih h2]

theorem stripQuery_append_slashQ (a b : PyStr) (ha : hasSlashQ a = false) :
    stripQuery (a ++ '/' :: '?' :: b) = a := by
  induction a with
  | nil => simp [stripQuery]
  | cons c rest ih =>
    cases rest with
    | nil =>
      simp only [List.cons_append, List.nil_append, stripQuery]
      rw [if_neg (by rintro ⟨rfl, h⟩; exact absurd h (by decide))]
      simp [stripQuery]
    | cons d t =>
      simp only [hasSlashQ, Bool.or_eq_false_iff, Bool.and_eq_false_iff] at ha
      rcases ha with ⟨h1, h2⟩
      have hcd : ¬(c = '/' ∧ d = '?') := by
        rintro ⟨rfl, rfl⟩
        simp at h1
      simp only [List.cons_append, stripQuery]
      rw [if_neg hcd]
      have := ih h2
      simpa [List.cons_append] using congrArg (c :: ·) this

/-- The head of `stripQuery l` is the head of `l` (when nonempty). -/
theorem stripQuery_eq_nil_or_cons (c : Char) (rest : PyStr) :
    stripQuery (c :: rest) = [] ∨
      ∃ u, stripQuery (c :: rest) = c :: u := by
  cases rest with
  | nil => exact Or.inr ⟨[], rfl⟩
  | cons d t =>
    simp only [stripQuery]
    by_cases h : c = '/' ∧ d = '?'
    · rw [if_pos h]; exact Or.inl rfl
    · rw [if_neg h]; exact Or.inr ⟨_, rfl⟩

theorem stripQuery_idem (l : PyStr) :
    stripQuery (stripQuery l) = stripQuery l := by
  induction l with
  | nil => rfl
  | cons c rest ih =>
    cases rest with
    | nil => rfl
    | cons d t =>
      simp only [stripQuery]
      by_cases h : c = '/' ∧ d = '?'
      · rw [if_pos h]; rfl
      · rw [if_neg h]
        rcases stripQuery_eq_nil_or_cons d t with hnil | ⟨u, hu⟩
        · rw [hnil]; rfl
        · rw [hu]
          have hstep : stripQuery (c :: d :: u) = c :: stripQuery (d :: u) := by
            simp only [stripQuery]; rw [if_neg h]
          rw [hstep, ← hu, ih, hu]

/-! ## Invariants of the collection loops -/

theorem looseStep_shape (banned : List PyStr) :
    StepShape (looseStep banned) := by
  intro st a
  simp only [looseStep]
  split
  · exact Or.inl rfl
  split
  · exact Or.inl rfl
  split
  · exact Or.inl rfl
  split
  next h => exact Or.inl rfl
  next h =>
    split
    · exact Or.inr (Or.inl ⟨stripQuery a.href, h, rfl⟩)
    · exact Or.inr (Or.inr ⟨stripQuery a.href, _, h, rfl, rfl⟩)

theorem looseStepE_shape (banned : List PyStr) :
    StepShape (looseStepE banned) := by
  intro st a
  cases a with
  | none => exact Or.inl rfl
  | some a => exact looseStep_shape banned st a

theorem tileStep_shape (banned : List PyStr) :
    StepShape (tileStep banned) := by
  intro st t
  cases htl : t.titleLink with
  | none => exact Or.inl (by simp only [tileStep, htl])
  | some tl =>
    simp only [tileStep, htl]
    split
    · exact Or.inl rfl
    split
    · exact Or.inl rfl
    split
    next h => exact Or.inl rfl
    next h =>
      split
      · exact Or.inr (Or.inl ⟨stripQuery (pyStrip tl.href), h, rfl⟩)
      split
      · exact Or.inr (Or.inl ⟨stripQuery (pyStrip tl.href), h, rfl⟩)
      · exact Or.inr (Or.inr ⟨stripQuery (pyStrip tl.href), _, h, rfl, rfl⟩)

theorem foldl_shape_invariant {α : Type} {step : ScrapeState → α → ScrapeState}
    (hs : StepShape step) :
    ∀ (l : List α) (st : ScrapeState),
      outUrls st ⊆ st.seen → (outUrls st).Nodup →
      outUrls (l.foldl step st) ⊆ (l.foldl step st).seen ∧
        (outUrls (l.foldl step st)).Nodup := by
  intro l
  induction l with
  | nil => intro st h1 h2; exact ⟨h1, h2⟩
  | cons a t ih =>
    intro st h1 h2
    simp only [List.foldl_cons]
    rcases hs st a with heq | ⟨u, hu, heq⟩ | ⟨u, e, hu, hue, heq⟩
    · rw [heq]; exact ih st h1 h2
    · rw [heq]
      refine ih _ (fun x hx => List.mem_append_left _ (h1 hx)) ?_
      simpa [outUrls] using h2
    · rw [heq]
      refine ih _ ?_ ?_
      · intro x hx
        simp only [outUrls, List.map_append, List.map_cons, List.map_nil,
          List.mem_append, List.mem_singleton, hue] at hx ⊢
        rcases hx with hx | hx
        · exact Or.inl (h1 hx)
        · exact Or.inr (by simp [hx])
      · have hnotin : u ∉ outUrls st := fun hmem => hu (h1 hmem)
        have h3 : ∀ x ∈ st.out, ¬ x.url = u := by
          intro x hx hxu
          exact hnotin (hxu ▸ List.mem_map_of_mem Entry.url hx)
        simp only [outUrls, List.map_append, List.map_cons, List.map_nil, hue]
        simpa [List.nodup_append, outUrls] using ⟨h2, h3⟩

theorem foldl_shape_seen_mono {α : Type} {step : ScrapeState → α → ScrapeState}
    (hs : StepShape step) :
    ∀ (l : List α) (st : ScrapeState), st.seen ⊆ (l.foldl step st).seen := by
  intro l
  induction l with
  | nil => intro st; exact fun x hx => hx
  | cons a t ih =>
    intro st
    simp only [List.foldl_cons]
    have hstep : st.seen ⊆ (step st a).seen := by
      rcases hs st a with heq | ⟨u, _, heq⟩ | ⟨u, e, _, _, heq⟩ <;>
        rw [heq] <;> intro x hx
      · exact hx
      · exact List.mem_append_left _ hx
      · exact List.mem_append_left _ hx
    exact fun x hx => ih (step st a) (hstep hx)

theorem foldl_shape_no_new_url {α : Type} {step : ScrapeState → α → ScrapeState}
    (hs : StepShape step) :
    ∀ (l : List α) (st : ScrapeState) (u : PyStr), u ∈ st.seen →
      (l.foldl step st).out.filter (fun e => decide (e.url = u)) =
        st.out.filter (fun e => decide (e.url = u)) := by
  intro l
  induction l with
  | nil => intro st u _; rfl
  | cons a t ih =>
    intro st u hu
    simp only [List.foldl_cons]
    rcases hs st a with heq | ⟨v, hv, heq⟩ | ⟨v, e, hv, hve, heq⟩
    · rw [heq]; exact ih st u hu
    · rw [heq]
      exact ih _ u (List.mem_append_left _ hu)
    · rw [heq]
      have hvu : v ≠ u := fun h => hv (h ▸ hu)
      have hfe : (st.out ++ [e]).filter (fun e => decide (e.url = u)) =
          st.out.filter (fun e => decide (e.url = u)) := by
        simp [List.filter_append, hve, hvu]
      rw [ih ⟨st.seen ++ [v], st.out ++ [e]⟩ u (List.mem_append_left _ hu)]
      exact hfe

theorem length_filter_le_one_of_nodup_map {α β : Type} [DecidableEq β]
    (f : α → β) :
    ∀ (l : List α), (l.map f).Nodup → ∀ u,
      (l.filter fun x => decide (f x = u)).length ≤ 1 := by
  intro l
  induction l with
  | nil => intro _ u; simp
  | cons a t ih =>
    intro h u
    simp only [List.map_cons, List.nodup_cons] at h
    by_cases hfa : f a = u
    · have ht : t.filter (fun x => decide (f x = u)) = [] := by
        rw [List.filter_eq_nil_iff]
        intro x hx
        simp only [decide_eq_true_eq]
        intro hxu
        exact h.1 (by rw [← hfa] at hxu; exact hxu ▸ List.mem_map_of_mem f hx)
      simp [List.filter_cons, hfa, ht]
    · simp only [List.filter_cons, decide_eq_true_eq, if_neg hfa]
      exact ih h.2 u

/-! ## Message assembly helpers -/

theorem intercalate_seven (sep a b c d e f g : PyStr) :
    List.intercalate sep [a, b, c, d, e, f, g] =
      a ++ sep ++ b ++ sep ++ c ++ sep ++ d ++ sep ++ e ++ sep ++ f ++
        sep ++ g := by
  simp [List.intercalate, List.intersperse, List.flatten, List.append_assoc]

/-! ## Claims -/

/-- C5: for every URL string with a query suffix, canonicalization removes
everything from the first occurrence of `/?` onward (a decomposition
`a ++ "/?" ++ b` with no `/?` inside `a` marks the first occurrence), and
canonicalization is idempotent on every URL string. -/
theorem claim_C5 :
    (∀ a b : PyStr, hasSlashQ a = false →
        stripQuery (a ++ '/' :: '?' :: b) = a) ∧
    (∀ s : PyStr, stripQuery (stripQuery s) = stripQuery s) :=
  ⟨fun a b ha => stripQuery_append_slashQ a b ha, stripQuery_idem⟩

/-- Witness for C5 at a concrete query-suffixed URL. -/
theorem claim_C5_witness :
    stripQuery ("https://www.upwork.com/jobs/~abc".data ++
        '/' :: '?' :: "ref=home".data) =
      "https://www.upwork.com/jobs/~abc".data ∧
    stripQuery (stripQuery "https://www.upwork.com/jobs/~abc/?q=1".data) =
      stripQuery "https://www.upwork.com/jobs/~abc/?q=1".data :=
  ⟨claim_C5.1 _ _ (by decide), claim_C5.2 _⟩

/-- C9: the liveness probe is a total boolean function of the session (so it
never raises); it answers `true` exactly when the no-op script call
succeeds and `false` whenever the call raises. -/
theorem claim_C9 :
    (∀ (d : Driver) (v : Int),
        d.execNoOp = Except.ok v → is_driver_alive d = true) ∧
    (∀ (d : Driver) (err : PyStr),
        d.execNoOp = Except.error err → is_driver_alive d = false) := by
  refine ⟨fun d v h => ?_, fun d err h => ?_⟩ <;> simp [is_driver_alive, h]

/-- Witness for C9 on a live and on a dead session. -/
theorem claim_C9_witness :
    is_driver_alive wDriverOk = true ∧ is_driver_alive wDriverDead = false :=
  ⟨claim_C9.1 wDriverOk 1 rfl, claim_C9.2 wDriverDead _ rfl⟩

/-- C4: a description longer than 800 characters is rendered as exactly its
first 800 characters followed by the single ellipsis marker (length
`800 + |marker|`); one of at most 800 characters is rendered unchanged; and
the formatted message embeds exactly this truncation. -/
theorem claim_C4 :
    (∀ s : PyStr, s.length > 800 →
        truncateDesc s = s.take 800 ++ ellipsisMark ∧
        (truncateDesc s).length = 800 + ellipsisMark.length) ∧
    (∀ s : PyStr, s.length ≤ 800 → truncateDesc s = s) ∧
    (∀ j : NotifyJob, ∃ pre : PyStr,
        formatJobMessage j =
          pre ++ truncateDesc j.jobDescription ++ ['\n'] ++ sepLine) := by
  refine ⟨fun s hs => ?_, fun s hs => ?_, fun j => ?_⟩
  · have ht : truncateDesc s = s.take 800 ++ ellipsisMark := by
      simp [truncateDesc, hs]
    refine ⟨ht, ?_⟩
    rw [ht]
    simp [List.length_take, Nat.min_eq_left (Nat.le_of_lt hs)]
  · simp [truncateDesc, Nat.not_lt.mpr hs]
  · refine ⟨sepLine ++ ['\n'] ++ j.jobTitle ++ ['\n'] ++ sepLine ++ ['\n'] ++
      j.jobUrl ++ ['\n'] ++ sepLine ++ ['\n'] ++ shortDate j.postedDate ++
      ['\n'] ++ sepLine ++ ['\n'], ?_⟩
    simp [formatJobMessage, intercalate_seven, List.append_assoc]

/-- Witness for C4 at a 900-character and a 5-character description. -/
theorem claim_C4_witness :
    truncateDesc (List.replicate 900 'a') =
      (List.replicate 900 'a').take 800 ++ ellipsisMark ∧
    (truncateDesc (List.replicate 900 'a')).length =
      800 + ellipsisMark.length ∧
    truncateDesc (List.replicate 5 'b') = List.replicate 5 'b' :=
  ⟨(claim_C4.1 _ (by norm_num [List.length_replicate])).1,
    (claim_C4.1 _ (by norm_num [List.length_replicate])).2,
    claim_C4.2.1 _ (by norm_num [List.length_replicate])⟩

/-- C7: an anchor (loose strategy) or tile (structured strategy) whose
visible title text strips to the empty string contributes nothing to the
pass: the step leaves the state untouched, so no record is emitted for it. -/
theorem claim_C7 :
    (∀ (banned : List PyStr) (st : ScrapeState) (a : Anchor),
        pyStrip a.text = [] → looseStep banned st a = st) ∧
    (∀ (banned : List PyStr) (st : ScrapeState) (t : Tile) (tl : TitleLink),
        t.titleLink = some tl → pyStrip tl.text = [] →
        tileStep banned st t = st) := by
  constructor
  · intro banned st a h
    simp only [looseStep]
    split
    · rfl
    split
    · rfl
    split
    · rfl
    next hfalse => exact absurd (by simp [h]) hfalse
  · intro banned st t tl htl h
    simp only [tileStep, htl]
    split
    · rfl
    next hfalse => exact absurd (by simp [h]) hfalse

/-- Witness for C7: a whitespace-only anchor and a whitespace-only tile are
both no-ops. -/
theorem claim_C7_witness :
    looseStep [] ⟨[], []⟩ wAnchor7 = ⟨[], []⟩ ∧
    tileStep [] ⟨[], []⟩ wTile7 = ⟨[], []⟩ :=
  ⟨claim_C7.1 [] ⟨[], []⟩ wAnchor7 (by decide),
   claim_C7.2 [] ⟨[], []⟩ wTile7 _ rfl (by decide)⟩

/-! ## Banned-filter lemmas -/

theorem lowerCL_isEmpty (t : PyStr) : (lowerCL t).isEmpty = t.isEmpty := by
  cases t <;> rfl

theorem hay_ne_nil_of_hasSub_lower {t hay : PyStr} (htne : t ≠ [])
    (hsub : hasSub (lowerCL t) (lowerCL hay) = true) : hay ≠ [] := by
  intro h0
  subst h0
  have hempty : (lowerCL t).isEmpty = true := hsub
  rw [lowerCL_isEmpty] at hempty
  cases t with
  | nil => exact htne rfl
  | cons c cs => simp at hempty

theorem descBannedSkip_true {banned : List PyStr} {t desc : PyStr}
    (ht : t ∈ banned) (htne : t ≠ [])
    (hsub : hasSub (lowerCL t) (lowerCL desc) = true) :
    descBannedSkip banned desc = true := by
  have hdne : desc ≠ [] := hay_ne_nil_of_hasSub_lower htne hsub
  have hde : desc.isEmpty = false := by
    cases desc with
    | nil => exact absurd rfl hdne
    | cons c cs => rfl
  simp only [descBannedSkip, hde, Bool.not_false, Bool.true_and]
  exact List.any_eq_true.mpr ⟨t, ht, hsub⟩

theorem partsBannedSkip_true {banned : List PyStr} {t part : PyStr}
    {parts : List PyStr} (ht : t ∈ banned) (hp : part ∈ parts)
    (hsub : hasSub (lowerCL t) (lowerCL part) = true) :
    partsBannedSkip banned parts = true := by
  have hpe : parts.isEmpty = false := by
    cases parts with
    | nil => exact absurd hp (List.not_mem_nil part)
    | cons c cs => rfl
  simp only [partsBannedSkip, hpe, Bool.not_false, Bool.true_and]
  exact List.any_eq_true.mpr ⟨t, ht, List.any_eq_true.mpr ⟨part, hp, hsub⟩⟩

/-- C1 counterexample.  Left: a structured tile with clean raw description
(`great work`) and proposals `5` composes the description
`Proposals: 5\n-\ngreat work`, which contains the configured term
`proposals:` case-insensitively — yet the record is emitted to the pass
output (hence handed to persistence and, on first insert, notification).
Right: with the configured term `''`, the composed description `''` of a
container-less anchor contains that term, yet the record is emitted — the
filter only runs on nonempty descriptions. -/
theorem claim_C1_counterexample :
    ((runStructured cxBannedA [cxTile]).out.length = 1 ∧
      ((runStructured cxBannedA [cxTile]).out.all fun e =>
        cxBannedA.any fun bc =>
          hasSub (lowerCL bc) (lowerCL e.description)) = true) ∧
    ((runLoose cxBannedB [some cxAnchor]).out.length = 1 ∧
      ((runLoose cxBannedB [some cxAnchor]).out.all fun e =>
        cxBannedB.any fun bc =>
          hasSub (lowerCL bc) (lowerCL e.description)) = true) := by
  decide

/-- C1 (amended): if a *nonempty* configured term occurs case-insensitively
in the *raw scraped* description (loose: the container heuristic's text;
structured: the stripped description paragraph), or — structured strategy —
in one of the assembled client-info parts, then the entry is discarded: the
step emits no record, so nothing reaches persistence or notification for
it.  (The composed description itself is not re-checked, and an empty
description is never checked — see the counterexample.) -/
theorem claim_C1 :
    (∀ (banned : List PyStr) (st : ScrapeState) (a : Anchor) (t : PyStr),
        t ∈ banned → t ≠ [] →
        hasSub (lowerCL t)
          (lowerCL (looseDescription (pyStrip a.text) a.container)) = true →
        (looseStep banned st a).out = st.out) ∧
    (∀ (banned : List PyStr) (st : ScrapeState) (tile : Tile) (t : PyStr),
        t ∈ banned → t ≠ [] →
        ((∃ part ∈ buildClientParts tile.client,
            hasSub (lowerCL t) (lowerCL part) = true) ∨
          hasSub (lowerCL t) (lowerCL (tileDesc tile)) = true) →
        (tileStep banned st tile).out = st.out) := by
  constructor
  · intro banned st a t ht htne hsub
    have hskip := descBannedSkip_true ht htne hsub
    simp only [looseStep]
    split
    · rfl
    split
    · rfl
    split
    · rfl
    split
    · rfl
    simp [hskip]
  · intro banned st tile t ht htne hdisj
    cases htl : tile.titleLink with
    | none => simp [tileStep, htl]
    | some tl =>
      simp only [tileStep, htl]
      split
      · rfl
      split
      · rfl
      split
      · rfl
      rcases hdisj with ⟨part, hp, hsub⟩ | hsub
      · simp [partsBannedSkip_true ht hp hsub]
      · simp [descBannedSkip_true ht htne hsub]

/-- Witness for C1 (amended): a banned term in the loose heuristic
description and a banned client location both suppress the record. -/
theorem claim_C1_witness :
    (looseStep wBanned1 ⟨[], []⟩ wAnchor1).out = [] ∧
    (tileStep wBanned1 ⟨[], []⟩ wTile1).out = [] :=
  ⟨claim_C1.1 wBanned1 ⟨[], []⟩ wAnchor1 "india".data (by decide) (by decide)
      (by decide),
   claim_C1.2 wBanned1 ⟨[], []⟩ wTile1 "india".data (by decide) (by decide)
      (Or.inl ⟨"India".data, by decide, by decide⟩)⟩

/-- C6: in either extraction pass, the output never holds two records with
the same canonical URL — for every URL, at most one record with that URL
appears in the pass output. -/
theorem claim_C6 :
    (∀ (banned : List PyStr) (anchors : List (Option Anchor)) (u : PyStr),
        ((runLoose banned anchors).out.filter
          fun e => decide (e.url = u)).length ≤ 1) ∧
    (∀ (banned : List PyStr) (tiles : List Tile) (u : PyStr),
        ((runStructured banned tiles).out.filter
          fun e => decide (e.url = u)).length ≤ 1) := by
  constructor
  · intro banned anchors u
    have hinv := foldl_shape_invariant (looseStepE_shape banned) anchors
      ⟨[], []⟩ (by simp [outUrls]) (by simp [outUrls])
    have hn : ((runLoose banned anchors).out.map Entry.url).Nodup := by
      simpa [outUrls, runLoose] using hinv.2
    exact length_filter_le_one_of_nodup_map Entry.url _ hn u
  · intro banned tiles u
    have hinv := foldl_shape_invariant (tileStep_shape banned) tiles
      ⟨[], []⟩ (by simp [outUrls]) (by simp [outUrls])
    have hn : ((runStructured banned tiles).out.map Entry.url).Nodup := by
      simpa [outUrls, runStructured] using hinv.2
    exact length_filter_le_one_of_nodup_map Entry.url _ hn u

/-- C10: in the loose strategy the canonical URL is recorded as seen before
the banned-locale filter runs, so when an anchor that passes the earlier
checks (nonempty href and title, not denylisted, URL not yet seen) is
discarded by the banned filter, no anchor in the whole pass — in
particular no later one with the same canonical URL — contributes a record
with that URL. -/
theorem claim_C10 (banned : List PyStr) (pre post : List (Option Anchor))
    (a : Anchor) (u : PyStr)
    (hurl : stripQuery a.href = u)
    (hhref : a.href.isEmpty = false)
    (hdeny : (urlDenylist.any fun bad => hasSub bad a.href) = false)
    (htitle : (pyStrip a.text).isEmpty = false)
    (hfresh : u ∉ (runLoose banned pre).seen)
    (hban : descBannedSkip banned
      (looseDescription (pyStrip a.text) a.container) = true) :
    ((runLoose banned (pre ++ some a :: post)).out.filter
      fun e => decide (e.url = u)) = [] := by
  have hstep : looseStep banned (runLoose banned pre) a =
      ⟨(runLoose banned pre).seen ++ [u], (runLoose banned pre).out⟩ := by
    simp [looseStep, hurl, hhref, hdeny, htitle, hban, hfresh]
  have hrun : runLoose banned (pre ++ some a :: post) =
      post.foldl (looseStepE banned)
        ⟨(runLoose banned pre).seen ++ [u], (runLoose banned pre).out⟩ := by
    simp only [runLoose, List.foldl_append, List.foldl_cons]
    exact congrArg (fun s => List.foldl (looseStepE banned) s post) hstep
  rw [hrun, foldl_shape_no_new_url (looseStepE_shape banned) post _ u
    (by simp)]
  have hsub : outUrls (runLoose banned pre) ⊆ (runLoose banned pre).seen :=
    (foldl_shape_invariant (looseStepE_shape banned) pre ⟨[], []⟩
      (by simp [outUrls]) (by simp [outUrls])).1
  rw [List.filter_eq_nil_iff]
  intro e he
  simp only [decide_eq_true_eq]
  intro heu
  exact hfresh (hsub (by
    simpa [outUrls, heu] using List.mem_map_of_mem Entry.url he))

/-- Witness for C10: the first anchor (banned description) consumes the
canonical URL, the second anchor with the same canonical URL is dropped —
no record with that URL survives the pass. -/
theorem claim_C10_witness :
    ((runLoose wBanned1 ([] ++ some wA10a :: [some wA10b])).out.filter
      fun e => decide (e.url = wU10)) = [] :=
  claim_C10 wBanned1 [] [some wA10b] wA10a wU10 (by decide) (by decide)
    (by decide) (by decide) (by decide) (by decide)

/-! ## Persist-loop lemmas -/

theorem persistAll_of_aborted (h : JobHelpers) (dbFail : Entry → Bool)
    (now : DateTime) :
    ∀ (l : List Entry) (st : PersistState), st.aborted = true →
      persistAll h dbFail now st l = st := by
  intro l
  induction l with
  | nil => intro st _; rfl
  | cons e t ih =>
    intro st hab
    simp only [persistAll, List.foldl_cons]
    rw [show persistStep h dbFail now st e = st from by
      simp [persistStep, hab]]
    exact ih st hab

theorem zip_map_self {α : Type} (f : α → α) (l : List α) :
    (l.map f).zip l = l.map fun x => (f x, x) := by
  induction l with
  | nil => rfl
  | cons a t ih => simp [ih]

/-- C2 counterexample.  A database exception while persisting the first
entry (`cx2e1`) is not caught inside the persist loop: the loop aborts with
nothing persisted, and the second entry — which would persist fine on its
own (second conjunct) — is never processed.  In `main` this exception
travels to the process-level handler, aborting the whole cycle, so the
claim that a single job's persistence exception only skips that job is
false. -/
theorem claim_C2_counterexample :
    persistAll idHelpers cx2Fail wNow ⟨[], [], false⟩ [cx2e1, cx2e2] =
      ⟨[], [], true⟩ ∧
    (persistAll idHelpers cx2Fail wNow ⟨[], [], false⟩ [cx2e2]).db.length =
      1 := by
  decide

/-- C2 (amended): an unexpected exception inside a single job's
*extraction* is caught per anchor — the pass over the remaining anchors is
exactly the pass without the failing one.  An exception inside a single
job's *persistence* step is not caught per job: it aborts the remainder of
the persist loop (in the best-matches pass this propagates to the
process-level handler and ends the cycle; in a search-page pass it ends
that page's pass). -/
theorem claim_C2 :
    (∀ (banned : List PyStr) (pre post : List (Option Anchor)),
        runLoose banned (pre ++ none :: post) =
          runLoose banned (pre ++ post)) ∧
    (∀ (h : JobHelpers) (dbFail : Entry → Bool) (now : DateTime)
        (st : PersistState) (e : Entry) (rest : List Entry),
        st.aborted = false → dbFail e = true →
        persistAll h dbFail now st (e :: rest) =
          { st with aborted := true }) := by
  constructor
  · intro banned pre post
    simp only [runLoose, List.foldl_append, List.foldl_cons]
    rfl
  · intro h dbFail now st e rest hab hdf
    simp only [persistAll, List.foldl_cons]
    rw [show persistStep h dbFail now st e = { st with aborted := true } from
      by simp [persistStep, hab, hdf]]
    exact persistAll_of_aborted h dbFail now rest { st with aborted := true }
      rfl

/-- Witness for C2: dropping a raising anchor leaves the pass unchanged; a
persistence failure on one entry aborts the loop. -/
theorem claim_C2_witness :
    runLoose [] ([] ++ none :: [some wAnchor2]) =
      runLoose [] ([] ++ [some wAnchor2]) ∧
    persistAll idHelpers w2Fail wNow ⟨[], [], false⟩ [w2e] =
      ⟨[], [], true⟩ :=
  ⟨claim_C2.1 [] [] [some wAnchor2],
   claim_C2.2 idHelpers w2Fail wNow ⟨[], [], false⟩ w2e [] rfl (by decide)⟩

/-- C3: re-processing an entry whose `job_id` already exists issues only the
`UPDATE` of `job_proposals` and `updated_at`: no notification is produced,
the table keeps its size, every row keeps its `job_title`, `job_url`,
`job_description`, `posted_date` and `job_tags`, rows with other ids are
untouched, and the matching rows get the cleaned new proposals value and
the current timestamp.  (Holds for every choice of the `job_helpers`
functions, which are not among the provided sources.) -/
theorem claim_C3 (h : JobHelpers) (dbFail : Entry → Bool) (now : DateTime)
    (st : PersistState) (e : Entry)
    (hab : st.aborted = false) (hdf : dbFail e = false)
    (hex : 0 < countById st.db (h.genId e.title)) :
    (persistStep h dbFail now st e).msgs = st.msgs ∧
    (persistStep h dbFail now st e).aborted = false ∧
    (persistStep h dbFail now st e).db.length = st.db.length ∧
    ∀ p ∈ (persistStep h dbFail now st e).db.zip st.db,
      p.1.jobTitle = p.2.jobTitle ∧
      p.1.jobUrl = p.2.jobUrl ∧
      p.1.jobDescription = p.2.jobDescription ∧
      p.1.postedDate = p.2.postedDate ∧
      p.1.jobTags = p.2.jobTags ∧
      (p.2.jobId ≠ h.genId e.title → p.1 = p.2) ∧
      (p.2.jobId = h.genId e.title →
        p.1.jobProposals = cleanedProps h e ∧ p.1.updatedAt = some now) := by
  have hps : persistStep h dbFail now st e =
      { st with db :=
          updateProposals st.db (h.genId e.title) (cleanedProps h e) now } := by
    simp [persistStep, hab, hdf, hex]
  rw [hps]
  refine ⟨rfl, hab, ?_, ?_⟩
  · simp [updateProposals]
  · intro p hp
    simp only [updateProposals] at hp
    rw [zip_map_self] at hp
    rcases List.mem_map.mp hp with ⟨r, hr, rfl⟩
    by_cases hid : r.jobId = h.genId e.title <;> simp [hid]

/-- Witness for C3 at a concrete database with one matching row. -/
theorem claim_C3_witness :
    (persistStep idHelpers w3Fail wNow w3St w3e).msgs = w3St.msgs ∧
    (persistStep idHelpers w3Fail wNow w3St w3e).db.length =
      w3St.db.length ∧
    w3Pair.1.jobTitle = w3Pair.2.jobTitle ∧
    w3Pair.1.jobUrl = w3Pair.2.jobUrl ∧
    w3Pair.1.jobDescription = w3Pair.2.jobDescription ∧
    w3Pair.1.jobProposals = cleanedProps idHelpers w3e ∧
    w3Pair.1.updatedAt = some wNow := by
  have hc := claim_C3 idHelpers w3Fail wNow w3St w3e rfl rfl (by decide)
  have hp := hc.2.2.2 w3Pair (by decide)
  exact ⟨hc.1, hc.2.2.1, hp.1, hp.2.1, hp.2.2.1,
    (hp.2.2.2.2.2.2 (by decide)).1, (hp.2.2.2.2.2.2 (by decide)).2⟩

/-- C8 counterexample: the real message carries a leading and a trailing
separator line around the seven body lines, so it is not the bare
title/URL/date/description sequence the claim describes. -/
theorem claim_C8_counterexample :
    formatJobMessage cx8Job ≠ specClaimMessage cx8Job := by
  decide

/-- C8 (amended): the message consists of a separator line, the title line,
a separator, the URL line, a separator, the short-date line, a separator,
the possibly truncated description, and a final separator line — the seven
body lines of the claim wrapped in one extra leading and one extra trailing
separator. -/
theorem claim_C8 (j : NotifyJob) :
    formatJobMessage j =
      sepLine ++ ['\n'] ++ j.jobTitle ++ ['\n'] ++ sepLine ++ ['\n'] ++
      j.jobUrl ++ ['\n'] ++ sepLine ++ ['\n'] ++ shortDate j.postedDate ++
      ['\n'] ++ sepLine ++ ['\n'] ++ truncateDesc j.jobDescription ++
      ['\n'] ++ sepLine := by
  simp [formatJobMessage, intercalate_seven, List.append_assoc]

end UpworkScraper
